import Mathlib

/-
  Verification development for plantopo-strava-sync.

  Shallow embedding of the store (SQLite-backed, internal/database), the
  Strava client pagination helpers (internal/strava), the worker
  (internal/worker/worker.go) and the OAuth coordinator (internal/oauth)
  into Lean, with theorems about the embedded operations.

  Conventions:
  - Unix timestamps are Int (seconds), as stored by the Go code via .Unix().
  - JSON ids arrive as float64 in Go; every id handled by the code is an
    integral 64-bit value, modelled as Int.
  - Opaque JSON blobs (activity bodies, athlete summaries) are modelled as
    String; the raw webhook notification is modelled by the parsed record
    WebhookPayload, since the code re-marshals the parsed map for storage
    and only the routed discriminant fields matter to any claim.
  - Database calls are modelled as total state transformers: io-level
    store failures are out of scope of the embedded logic.
-/

namespace StravaSync

/-! ## Webhook notification payload

  processWebhook unmarshals the raw body into a map and reads only the
  discriminants object_type, aspect_type, owner_id, object_id and
  updates.authorized.  A field is modelled as none when it is absent or
  has the wrong JSON type, matching the failed Go type assertion. -/

structure WebhookUpdates where
  authorized : Option String
  deriving DecidableEq, Repr

structure WebhookPayload where
  objectType : Option String
  aspectType : Option String
  ownerId : Option Int
  objectId : Option Int
  updates : Option WebhookUpdates
  deriving DecidableEq, Repr

/-! ## Event log (events table, internal/database/athletes.go)

  event_id INTEGER PRIMARY KEY AUTOINCREMENT: ids are handed out by a
  monotone counter that is never reused, modelled by nextId. -/

structure EventRow where
  eventId : Int
  eventType : String
  athleteId : Int
  activityId : Option Int
  athleteSummary : Option String
  activity : Option String
  webhookEvent : Option WebhookPayload
  deriving DecidableEq, Repr

structure EventLog where
  rows : List EventRow
  nextId : Int
  deriving DecidableEq, Repr

/-- Store invariant maintained by AUTOINCREMENT: rows are in ascending
  event_id order and every existing id is below the counter. -/
def EventLog.Wf (log : EventLog) : Prop :=
  log.rows.Pairwise (fun a b => a.eventId < b.eventId) ∧
    ∀ e ∈ log.rows, e.eventId < log.nextId

instance (log : EventLog) : Decidable log.Wf := by
  unfold EventLog.Wf; infer_instance

/-- DB.InsertAthleteConnectedEvent: INSERT INTO events
  (event_type, athlete_id, athlete_summary). Returns the new event id. -/
def insertAthleteConnectedEvent (athleteId : Int) (athleteSummary : String)
    (log : EventLog) : EventLog × Int :=
  (⟨log.rows ++
      [⟨log.nextId, "athlete_connected", athleteId, none, some athleteSummary,
        none, none⟩],
    log.nextId + 1⟩, log.nextId)

/-- DB.InsertActivityEvent: INSERT INTO events (event_type, athlete_id,
  activity_id, activity, webhook_event) VALUES ("webhook", ...).
  Rejects a nil webhookEventData with an error, as the Go code does. -/
def insertActivityEvent (athleteId : Int) (activityId : Option Int)
    (activityData : Option String) (webhookEventData : Option WebhookPayload)
    (log : EventLog) : Except String (EventLog × Int) :=
  if webhookEventData = none then
    .error "webhookEventData is required for webhook events"
  else
    .ok (⟨log.rows ++
        [⟨log.nextId, "webhook", athleteId, activityId, none, activityData,
          webhookEventData⟩],
      log.nextId + 1⟩, log.nextId)

/-- Modelled from the spec: the body of DB.InsertBackfillEvent is missing
  from the sources (only its caller Worker.syncActivity is present);
  append_backfill_event(athlete_id, activity_id, activity) appends a
  backfill event with the hydrated activity blob. -/
def insertBackfillEvent (athleteId : Int) (activityId : Int)
    (activityData : String) (log : EventLog) : EventLog × Int :=
  (⟨log.rows ++
      [⟨log.nextId, "backfill", athleteId, some activityId, none,
        some activityData, none⟩],
    log.nextId + 1⟩, log.nextId)

/-- DB.GetEvents: SELECT ... WHERE event_id > cursor ORDER BY event_id ASC
  LIMIT limit.  The rows are stored in ascending event_id order (EventLog.Wf),
  so the ORDER BY clause is the identity on the selected rows.  In SQLite a
  negative LIMIT argument means no limit. -/
def getEvents (cursor : Int) (limit : Int) (log : EventLog) : List EventRow :=
  let selected := log.rows.filter (fun e => cursor < e.eventId)
  if limit < 0 then selected else selected.take limit.toNat

/-- DB.DeleteAthleteEvents: DELETE FROM events
  WHERE athlete_id = ? AND event_id != ?. -/
def deleteAthleteEvents (athleteId : Int) (exceptEventId : Int)
    (log : EventLog) : EventLog :=
  ⟨log.rows.filter
      (fun e => ¬(e.athleteId = athleteId ∧ e.eventId ≠ exceptEventId)),
    log.nextId⟩

/-! ## Durable work queues
  (internal/database/webhook_queue.go and internal/database/sync_jobs.go)

  The two Go files implement the same claim/release/delete logic over two
  row shapes; the shared fields are factored here with the row payload as
  a type parameter.  WebhookQueueItem carries the raw notification
  (Option WebhookPayload: none models a body that fails json.Unmarshal);
  a SyncJob carries athlete_id, job_type, activity_id and created_at. -/

structure QueueRow (α : Type) where
  id : Int
  payload : α
  retryCount : Nat
  lastError : Option String
  nextRetryAt : Option Int
  processingStartedAt : Option Int
  deriving DecidableEq, Repr

structure SyncJobData where
  athleteId : Int
  jobType : String
  activityId : Option Int
  createdAt : Int
  deriving DecidableEq, Repr

/-- A webhook_queue row: payload is the parsed notification. -/
abbrev WebhookQueueItem := QueueRow (Option WebhookPayload)

/-- A sync_jobs row. -/
abbrev SyncJob := QueueRow SyncJobData

/-- StaleLockTimeout = 5 * time.Minute, in seconds. -/
def staleLockTimeoutS : Int := 300

/-- MaxRetries = 10. -/
def maxRetries : Nat := 10

/-- The readiness predicate of ClaimWebhook and ClaimSyncJob:
  (next_retry_at IS NULL OR next_retry_at <= now)
  AND (processing_started_at IS NULL OR processing_started_at < now - 5min). -/
def rowReady (now : Int) (r : QueueRow α) : Bool :=
  (match r.nextRetryAt with
   | none => true
   | some t => t ≤ now) &&
  (match r.processingStartedAt with
   | none => true
   | some t => t < now - staleLockTimeoutS)

/-- DB.ClaimWebhook and DB.ClaimSyncJob:
  UPDATE ... SET processing_started_at = now WHERE id =
  (SELECT id ... WHERE ready ORDER BY id ASC LIMIT 1) RETURNING ...
  The table is represented as a list in ascending id order (AUTOINCREMENT),
  so the row with the smallest ready id is the first ready row. -/
def claimNext (now : Int) : List (QueueRow α) →
    Option (QueueRow α) × List (QueueRow α)
  | [] => (none, [])
  | r :: rest =>
    if rowReady now r then
      (some { r with processingStartedAt := some now },
       { r with processingStartedAt := some now } :: rest)
    else
      let (c, rest') := claimNext now rest
      (c, r :: rest')

/-- DB.DeleteWebhook and DB.DeleteSyncJob: DELETE ... WHERE id = ?. -/
def deleteRow (id : Int) (q : List (QueueRow α)) : List (QueueRow α) :=
  q.filter (fun r => r.id ≠ id)

/-- The backoff table of ReleaseWebhook and ReleaseSyncJob, in minutes. -/
def backoffMinutes : List Nat := [1, 5, 15, 30, 60, 120, 240]

/-- DB.ReleaseWebhook and DB.ReleaseSyncJob.  Returns
  (shouldRetry, updated queue): with newRetryCount = retryCount + 1,
  drops the row when newRetryCount > MaxRetries, otherwise updates it with
  the clamped backoff and clears processing_started_at.
  retryCount is a Nat: the column is NOT NULL DEFAULT 0 and only ever set
  to a previous value plus one. -/
def releaseRow (now : Int) (id : Int) (retryCount : Nat) (errMsg : String)
    (q : List (QueueRow α)) : Bool × List (QueueRow α) :=
  let newRetryCount := retryCount + 1
  if newRetryCount > maxRetries then
    (false, deleteRow id q)
  else
    let backoffIdx0 := newRetryCount - 1
    let backoffIdx :=
      if backoffIdx0 ≥ backoffMinutes.length then backoffMinutes.length - 1
      else backoffIdx0
    let nextRetryAt := now + 60 * (backoffMinutes.getD backoffIdx 0 : Int)
    (true,
     q.map (fun r =>
       if r.id = id then
         { r with
             retryCount := newRetryCount,
             lastError := some errMsg,
             nextRetryAt := some nextRetryAt,
             processingStartedAt := none }
       else r))

/-- DB.EnqueueSyncJob: INSERT INTO sync_jobs (athlete_id, job_type),
  activity_id NULL, counters at their defaults. -/
def enqueueSyncJob (athleteId : Int) (jobType : String) (now : Int)
    (q : List SyncJob) (nextJobId : Int) : List SyncJob × Int :=
  (q ++ [⟨nextJobId, ⟨athleteId, jobType, none, now⟩, 0, none, none, none⟩],
   nextJobId + 1)

/-- Modelled from the spec: the body of DB.EnqueueActivitySyncJob is
  missing from the sources (only its caller Worker.listActivities is
  present); enqueue_backfill(athlete_id, sync_activity, activity_id)
  appends a sync_activity job carrying the activity id. -/
def enqueueActivitySyncJob (athleteId : Int) (activityId : Int) (now : Int)
    (q : List SyncJob) (nextJobId : Int) : List SyncJob × Int :=
  (q ++ [⟨nextJobId, ⟨athleteId, "sync_activity", some activityId, now⟩,
      0, none, none, none⟩],
   nextJobId + 1)

/-! ## Athletes table (internal/database/athletes.go) -/

structure AthleteRow where
  athleteId : Int
  accessToken : String
  refreshToken : String
  tokenExpiresAt : Int
  athleteSummary : String
  createdAt : Int
  updatedAt : Int
  deriving DecidableEq, Repr

/-- DB.UpsertAthlete: INSERT ... ON CONFLICT(athlete_id) DO UPDATE SET
  access_token, refresh_token, token_expires_at, athlete_summary,
  updated_at (created_at is not in the update list, so it is preserved
  on conflict). -/
def upsertAthlete (a : AthleteRow) (table : List AthleteRow) :
    List AthleteRow :=
  if table.any (fun r => r.athleteId = a.athleteId) then
    table.map (fun r =>
      if r.athleteId = a.athleteId then
        { r with
            accessToken := a.accessToken,
            refreshToken := a.refreshToken,
            tokenExpiresAt := a.tokenExpiresAt,
            athleteSummary := a.athleteSummary,
            updatedAt := a.updatedAt }
      else r)
  else
    table ++ [a]

/-! ## Strava client (internal/strava) -/

/-- Typed outcome of Client.GetActivity as classified by the worker via
  strava.IsNotFound / IsUnauthorized / IsTooManyRequests. -/
inductive GetActivityResult
  | ok (data : String)
  | notFound
  | unauthorized
  | tooManyRequests
  | otherError
  deriving DecidableEq, Repr

/-- Client.ListActivities: page/per_page normalization and has_more.
  respIds stands for the decoded JSON array of activity summaries the
  Platform returned for the (normalized) request.  request records the
  page and per_page values actually sent. -/
structure ListActivitiesCall where
  request : Int × Int
  ids : List Int
  hasMore : Bool
  deriving DecidableEq, Repr

/-- Client.ListActivities (success path): if page < 1 it becomes 1; if
  per_page < 1 or per_page > 200 it becomes 200; the ids are extracted in
  order; hasMore := len(activities) == perPage (against the normalized
  per_page variable). -/
def clientListActivities (page perPage : Int) (respIds : List Int) :
    ListActivitiesCall :=
  let p := if page < 1 then 1 else page
  let pp := if perPage < 1 ∨ perPage > 200 then 200 else perPage
  { request := (p, pp), ids := respIds, hasMore := (respIds.length : Int) == pp }

/-- One Platform response to a list-activities request, as the worker
  classifies it: a decoded page, or a typed error. -/
inductive ListPageResult
  | page (ids : List Int)
  | rateLimited
  | unauthorizedErr
  | otherErr
  deriving DecidableEq, Repr

/-! ## Worker (internal/worker/worker.go) -/

/-- How processWebhook finishes with a claimed item: success paths call
  DeleteWebhook (completed); failure paths call ReleaseWebhook, which
  either retains the row with retry accounting or drops it past
  MaxRetries. -/
inductive WebhookOutcome
  | completed
  | released (retained : Bool)
  deriving DecidableEq, Repr

/-- Worker.processWebhookActivity: fetch the activity; on NotFound or
  Unauthorized return nil without touching the store; on 429 or any other
  error return the error (the caller releases); on success insert a
  webhook event with the hydrated blob and the raw notification.
  Returns (event log, circuit-open flag, error flag).
  getRes is the Platform response to the single GetActivity call. -/
def processWebhookActivity (getRes : GetActivityResult)
    (athleteId activityId : Int) (webhookData : WebhookPayload)
    (log : EventLog) : EventLog × Bool × Bool :=
  match getRes with
  | .notFound => (log, false, false)
  | .unauthorized => (log, false, false)
  | .tooManyRequests => (log, true, true)
  | .otherError => (log, false, true)
  | .ok data =>
    match insertActivityEvent athleteId (some activityId) (some data)
        (some webhookData) log with
    | .error _ => (log, false, true)
    | .ok (log', _) => (log', false, false)

/-- Worker.handleActivity: reads owner_id and object_id as numbers
  (error if not), dispatches on aspect_type (empty string when absent or
  not a string).  Returns (event log, circuit-open flag, error flag). -/
def handleActivity (getRes : GetActivityResult) (w : WebhookPayload)
    (log : EventLog) : EventLog × Bool × Bool :=
  match w.ownerId with
  | none => (log, false, true)
  | some athleteId =>
    match w.objectId with
    | none => (log, false, true)
    | some activityId =>
      let aspectType := w.aspectType.getD ""
      if aspectType = "create" ∨ aspectType = "update" then
        processWebhookActivity getRes athleteId activityId w log
      else if aspectType = "delete" then
        match insertActivityEvent athleteId (some activityId) none (some w)
            log with
        | .error _ => (log, false, true)
        | .ok (log', _) => (log', false, false)
      else
        (log, false, false)

/-- Worker.handleAthlete: only aspect_type "update" with
  updates.authorized == "false" acts; it inserts a deauthorization event
  (no activity id, no activity blob, raw notification) and then deletes
  every other event of that athlete.  Returns (event log, error flag). -/
def handleAthlete (w : WebhookPayload) (log : EventLog) : EventLog × Bool :=
  match w.ownerId with
  | none => (log, true)
  | some athleteId =>
    if w.aspectType.getD "" ≠ "update" then
      (log, false)
    else
      match w.updates with
      | none => (log, true)
      | some updates =>
        if updates.authorized ≠ some "false" then
          (log, false)
        else
          match insertActivityEvent athleteId none none (some w) log with
          | .error _ => (log, true)
          | .ok (log', eventId) =>
            (deleteAthleteEvents athleteId eventId log', false)

/-- Worker.processWebhook: unmarshal (none = invalid JSON, released for
  retry); dispatch on object_type ("" when absent or not a string):
  activity and athlete go to their handlers, anything else is deleted
  without an event; a handler error releases the item, otherwise the item
  is deleted.  getRes feeds the single GetActivity call the activity path
  may make.  Returns (event log, webhook queue, outcome). -/
def processWebhook (getRes : GetActivityResult) (now : Int)
    (item : WebhookQueueItem) (log : EventLog)
    (q : List WebhookQueueItem) :
    EventLog × List WebhookQueueItem × WebhookOutcome :=
  match item.payload with
  | none =>
    let (retained, q') := releaseRow now item.id item.retryCount
      "invalid JSON" q
    (log, q', .released retained)
  | some w =>
    match w.objectType.getD "" with
    | "activity" =>
      let (log', _circuitOpened, isErr) := handleActivity getRes w log
      if isErr then
        let (retained, q') := releaseRow now item.id item.retryCount
          "handler error" q
        (log', q', .released retained)
      else
        (log', deleteRow item.id q, .completed)
    | "athlete" =>
      let (log', isErr) := handleAthlete w log
      if isErr then
        let (retained, q') := releaseRow now item.id item.retryCount
          "handler error" q
        (log', q', .released retained)
      else
        (log', deleteRow item.id q, .completed)
    | _ =>
      (log, deleteRow item.id q, .completed)

/-- Worker.listActivities: iterate pages from 1 with per_page 200,
  enqueueing a sync_activity job for every returned activity id, until a
  page reports hasMore = false (hasMore is computed by
  clientListActivities from the page length).  trace is the sequence of
  Platform responses, consumed one per request; the loop also records the
  (page, perPage) pairs it requested.  An exhausted trace ends the run
  (runOk = false there; in the program every request gets a response).
  Returns (requests made, sync job queue, next job id, runOk, error
  flag). -/
def listActivitiesLoop (athleteId : Int) (now : Int) (page : Int)
    (trace : List ListPageResult) (q : List SyncJob) (nextJobId : Int) :
    List (Int × Int) × List SyncJob × Int × Bool × Bool :=
  match trace with
  | [] => ([], q, nextJobId, false, false)
  | resp :: rest =>
    match resp with
    | .rateLimited => ([(page, 200)], q, nextJobId, true, true)
    | .unauthorizedErr => ([(page, 200)], q, nextJobId, true, false)
    | .otherErr => ([(page, 200)], q, nextJobId, true, true)
    | .page ids =>
      let call := clientListActivities page 200 ids
      let (q', nextJobId') := call.ids.foldl
        (fun (acc : List SyncJob × Int) aid =>
          enqueueActivitySyncJob athleteId aid now acc.1 acc.2)
        (q, nextJobId)
      if call.hasMore then
        let (reqs, q'', nid'', runOk, isErr) :=
          listActivitiesLoop athleteId now (page + 1) rest q' nextJobId'
        (call.request :: reqs, q'', nid'', runOk, isErr)
      else
        ([call.request], q', nextJobId', true, false)

/-- Worker.listActivities starts the loop at page 1. -/
def listActivities (athleteId : Int) (now : Int)
    (trace : List ListPageResult) (q : List SyncJob) (nextJobId : Int) :
    List (Int × Int) × List SyncJob × Int × Bool × Bool :=
  listActivitiesLoop athleteId now 1 trace q nextJobId

/-- The dispatch of Worker.processSyncJob on job_type. -/
inductive SyncDispatch
  | listActs (athleteId : Int)
  | syncAct (athleteId activityId : Int)
  | invalidSyncActivity
  | unknownJobType
  deriving DecidableEq, Repr

/-- Worker.processSyncJob switch: list_activities runs
  Worker.listActivities for the athlete of the job; sync_activity needs an
  activity id (jobs without one are deleted as invalid); unknown kinds are
  deleted without processing. -/
def syncJobDispatch (job : SyncJob) : SyncDispatch :=
  match job.payload.jobType with
  | "list_activities" => .listActs job.payload.athleteId
  | "sync_activity" =>
    match job.payload.activityId with
    | some aid => .syncAct job.payload.athleteId aid
    | none => .invalidSyncActivity
  | _ => .unknownJobType

/-! ## OAuth coordinator (internal/oauth/manager.go)

  Two revisions of Manager.HandleCallback appear in the repository; the
  embedding follows the current one (per-credential-set clients), which is
  the revision whose signature handlers/oauth.go calls and whose job kind
  the worker dispatcher recognizes. -/

/-- The token endpoint response: tokens, expiry, and the athlete summary
  blob.  athleteIdParse is the result of unmarshalling the blob into
  struct { ID int64 }: none when that unmarshal fails. -/
structure TokenResponse where
  accessToken : String
  refreshToken : String
  expiresAt : Int
  athleteBlob : String
  athleteIdParse : Option Int
  deriving DecidableEq, Repr

/-- The store state touched by HandleCallback. -/
structure OAuthStores where
  athletes : List AthleteRow
  log : EventLog
  syncJobs : List SyncJob
  nextJobId : Int
  deriving DecidableEq, Repr

/-- Manager.HandleCallback: validateState yields the credential-set id
  (none = invalid or expired state); ExchangeCode yields the token
  response (none = exchange failure); then the athlete id is parsed, the
  athlete is upserted, an athlete_connected event is appended and a
  list_activities sync job is enqueued (enqueue failure would not fail the
  flow; the store model is total).  Returns the (athlete id, client id)
  result and the updated stores. -/
def handleCallback (stateClient : Option String)
    (exchange : Option TokenResponse) (now : Int) (s : OAuthStores) :
    Option (Int × String) × OAuthStores :=
  match stateClient with
  | none => (none, s)
  | some clientId =>
    match exchange with
    | none => (none, s)
    | some tr =>
      match tr.athleteIdParse with
      | none => (none, s)
      | some athleteId =>
        let athletes' := upsertAthlete
          ⟨athleteId, tr.accessToken, tr.refreshToken, tr.expiresAt,
            tr.athleteBlob, now, now⟩ s.athletes
        let (log', _) := insertAthleteConnectedEvent athleteId tr.athleteBlob
          s.log
        let (jobs', nextJobId') := enqueueSyncJob athleteId "list_activities"
          now s.syncJobs s.nextJobId
        (some (athleteId, clientId), ⟨athletes', log', jobs', nextJobId'⟩)

/-! ## Events endpoint (internal/handlers/oauth.go, EventsHandler) -/

/-- EventsHandler.getLatestCursor: the event_id of the last returned event,
  or the request cursor when the list is empty. -/
def getLatestCursor (events : List EventRow) (currentCursor : Int) : Int :=
  match events.getLast? with
  | none => currentCursor
  | some e => e.eventId

/-- EventsHandler.longPollEvents: re-read until a read is non-empty or the
  deadline passes, then return the (possibly empty) batch.  logs is the
  sequence of store snapshots seen at each poll; an exhausted list models
  the deadline. -/
def longPollEvents (cursor limit : Int) : List EventLog → List EventRow
  | [] => []
  | log :: rest =>
    let events := getEvents cursor limit log
    if events.isEmpty then longPollEvents cursor limit rest else events

/-- EventsHandler.HandleEvents response body: the events batch (from the
  direct read or the long poll) and the cursor field computed by
  getLatestCursor. -/
def handleEventsResponse (cursor limit : Int) (longPoll : Bool)
    (log : EventLog) (pollLogs : List EventLog) : List EventRow × Int :=
  let events :=
    if longPoll then longPollEvents cursor limit pollLogs
    else getEvents cursor limit log
  (events, getLatestCursor events cursor)

/-! ## Theorems -/

/-- C10: ListActivities normalizes out-of-range pagination arguments
  rather than rejecting them: a page below 1 is treated as 1, a per_page
  outside [1,200] is treated as 200, and the request always uses
  page >= 1 and per_page in [1,200]. -/
theorem listActivities_normalizes_pagination (page perPage : Int)
    (respIds : List Int) :
    (page < 1 →
      (clientListActivities page perPage respIds).request.1 = 1) ∧
    (1 ≤ page →
      (clientListActivities page perPage respIds).request.1 = page) ∧
    ((perPage < 1 ∨ 200 < perPage) →
      (clientListActivities page perPage respIds).request.2 = 200) ∧
    (1 ≤ perPage → perPage ≤ 200 →
      (clientListActivities page perPage respIds).request.2 = perPage) ∧
    1 ≤ (clientListActivities page perPage respIds).request.1 ∧
    1 ≤ (clientListActivities page perPage respIds).request.2 ∧
    (clientListActivities page perPage respIds).request.2 ≤ 200 := by
  unfold clientListActivities
  dsimp only
  refine ⟨?_, ?_, ?_, ?_, ?_, ?_, ?_⟩ <;> split <;> omega

/-- Closed instance of listActivities_normalizes_pagination. -/
theorem listActivities_normalizes_pagination_witness :
    ((-3 : Int) < 1 →
      (clientListActivities (-3) 500 []).request.1 = 1) ∧
    ((clientListActivities (-3) 500 []).request.2 = 200) := by
  refine ⟨fun h => ?_, ?_⟩
  · exact (listActivities_normalizes_pagination (-3) 500 []).1 h
  · exact (listActivities_normalizes_pagination (-3) 500 []).2.2.1 (by omega)

/-- C8 counterexample: a call with per_page = 0 (normalized to 200 by the
  client) whose response holds 0 activities has a page count equal to the
  per_page argument (0 = 0), yet has_more is false, so has_more is not
  equivalent to the count equalling the per_page the caller passed. -/
theorem listActivities_hasMore_counterexample :
    (clientListActivities 1 0 ([] : List Int)).hasMore = false ∧
    (([] : List Int).length : Int) = 0 := by
  constructor
  · rfl
  · rfl

/-- C8 (amended): has_more is true exactly when the page count equals the
  per_page actually sent in the request, that is the normalized per_page
  (equal to the argument whenever the argument lies in [1,200]). -/
theorem listActivities_hasMore_iff_full_page (page perPage : Int)
    (respIds : List Int) :
    (clientListActivities page perPage respIds).hasMore = true ↔
      (respIds.length : Int) =
        (clientListActivities page perPage respIds).request.2 := by
  simp [clientListActivities]

/-- C9: UpsertAthlete on an already-present athlete id rewrites the row
  with the new tokens, expiry, summary and updated-at while the stored
  created-at is kept. -/
theorem upsertAthlete_preserves_createdAt (a : AthleteRow)
    (table : List AthleteRow)
    (h : ∃ r ∈ table, r.athleteId = a.athleteId) :
    upsertAthlete a table = table.map (fun r =>
      if r.athleteId = a.athleteId then
        ⟨r.athleteId, a.accessToken, a.refreshToken, a.tokenExpiresAt,
          a.athleteSummary, r.createdAt, a.updatedAt⟩
      else r) := by
  unfold upsertAthlete
  rw [if_pos (by simpa using h)]

/-- Closed instance of upsertAthlete_preserves_createdAt. -/
theorem upsertAthlete_preserves_createdAt_witness :
    upsertAthlete ⟨5, "at2", "rt2", 900, "sum2", 70, 80⟩
        [⟨5, "at1", "rt1", 100, "sum1", 10, 20⟩] =
      [⟨5, "at2", "rt2", 900, "sum2", 10, 80⟩] := by
  have := upsertAthlete_preserves_createdAt
    ⟨5, "at2", "rt2", 900, "sum2", 70, 80⟩
    [⟨5, "at1", "rt1", 100, "sum1", 10, 20⟩]
    ⟨⟨5, "at1", "rt1", 100, "sum1", 10, 20⟩, by simp, rfl⟩
  simpa using this

/-- The release behavior shared by ReleaseWebhook and ReleaseSyncJob,
  stated with the backoff index written as min(newRetryCount, 7) - 1. -/
theorem releaseRow_spec {α : Type} [DecidableEq α] (now id : Int) (r : Nat)
    (errMsg : String) (q : List (QueueRow α)) :
    (r + 1 > 10 → releaseRow now id r errMsg q = (false, deleteRow id q)) ∧
    (r + 1 ≤ 10 → releaseRow now id r errMsg q =
      (true, q.map (fun row =>
        if row.id = id then
          { row with
              retryCount := r + 1,
              lastError := some errMsg,
              nextRetryAt := some (now +
                60 * (backoffMinutes.getD (min (r + 1) 7 - 1) 0 : Int)),
              processingStartedAt := none }
        else row))) := by
  constructor
  · intro h
    unfold releaseRow
    dsimp only
    rw [if_pos (by simp only [maxRetries]; omega)]
  · intro h
    unfold releaseRow
    dsimp only
    rw [if_neg (by simp only [maxRetries]; omega)]
    have hlen : backoffMinutes.length = 7 := rfl
    have hidx : (if r + 1 - 1 ≥ backoffMinutes.length then
        backoffMinutes.length - 1 else r + 1 - 1) = min (r + 1) 7 - 1 := by
      rw [hlen]; split <;> omega
    rw [hidx]

/-- C3: releasing a webhook queue item or a sync job with prior retry
  count r deletes the row and reports it dropped when r + 1 exceeds 10;
  otherwise the row gets retry count r + 1, a cleared
  processing-started-at, and next-retry-at = now plus
  backoff_minutes[min(r + 1, 7) - 1] minutes
  (backoff_minutes = [1, 5, 15, 30, 60, 120, 240]). -/
theorem release_retry_backoff (now id : Int) (r : Nat) (errMsg : String)
    (qw : List WebhookQueueItem) (qs : List SyncJob) :
    (r + 1 > 10 →
      releaseRow now id r errMsg qw = (false, deleteRow id qw) ∧
      releaseRow now id r errMsg qs = (false, deleteRow id qs)) ∧
    (r + 1 ≤ 10 →
      releaseRow now id r errMsg qw =
        (true, qw.map (fun row =>
          if row.id = id then
            { row with
                retryCount := r + 1,
                lastError := some errMsg,
                nextRetryAt := some (now +
                  60 * (backoffMinutes.getD (min (r + 1) 7 - 1) 0 : Int)),
                processingStartedAt := none }
          else row)) ∧
      releaseRow now id r errMsg qs =
        (true, qs.map (fun row =>
          if row.id = id then
            { row with
                retryCount := r + 1,
                lastError := some errMsg,
                nextRetryAt := some (now +
                  60 * (backoffMinutes.getD (min (r + 1) 7 - 1) 0 : Int)),
                processingStartedAt := none }
          else row))) := by
  exact ⟨fun h => ⟨(releaseRow_spec now id r errMsg qw).1 h,
      (releaseRow_spec now id r errMsg qs).1 h⟩,
    fun h => ⟨(releaseRow_spec now id r errMsg qw).2 h,
      (releaseRow_spec now id r errMsg qs).2 h⟩⟩

/-- Closed instance of release_retry_backoff: a second release (r = 1)
  keeps the row with retry count 2 and a 5 minute backoff, and an
  eleventh release (r = 10) drops the row. -/
theorem release_retry_backoff_witness :
    releaseRow 1000 1 1 "e"
        ([⟨1, (none : Option WebhookPayload), 1, none, none, none⟩]) =
      (true, [⟨1, none, 2, some "e", some 1300, none⟩]) ∧
    releaseRow 1000 1 10 "e"
        ([⟨1, (none : Option WebhookPayload), 10, none, none, none⟩]) =
      (false, []) := by
  constructor
  · have h := (release_retry_backoff 1000 1 1 "e"
      [⟨1, (none : Option WebhookPayload), 1, none, none, none⟩] []).2
      (by omega)
    rw [h.1]
    decide
  · have h := (release_retry_backoff 1000 1 10 "e"
      [⟨1, (none : Option WebhookPayload), 10, none, none, none⟩] []).1
      (by omega)
    rw [h.1]
    decide

/-- C1 counterexample: a create activity webhook whose GetActivity call
  answers NotFound, processed against an empty event log.  The claim
  requires a webhook event with the raw notification to be appended; the
  code leaves the event log empty (it only deletes the queue item), as the
  full result shows. -/
theorem webhook_notFound_counterexample :
    processWebhook .notFound 2000
        ⟨1, some ⟨some "activity", some "create", some 12345, some 67890,
          none⟩, 0, none, none, none⟩
        ⟨[], 1⟩
        [⟨1, some ⟨some "activity", some "create", some 12345, some 67890,
          none⟩, 0, none, none, none⟩] =
      (⟨[], 1⟩, [], .completed) := by
  decide

/-- C1 (amended): when an activity webhook with aspect_type create or
  update is processed and GetActivity fails with NotFound or Unauthorized,
  the worker appends no event at all (the event log is unchanged) and
  completes the queue item without retry (the item is deleted from the
  webhook queue, not released). -/
theorem webhook_notFound_unauthorized_completes (getRes : GetActivityResult)
    (now : Int) (item : WebhookQueueItem) (w : WebhookPayload)
    (log : EventLog) (q : List WebhookQueueItem)
    (hpayload : item.payload = some w)
    (hobj : w.objectType = some "activity")
    (howner : w.ownerId.isSome) (hobjid : w.objectId.isSome)
    (haspect : w.aspectType = some "create" ∨ w.aspectType = some "update")
    (hres : getRes = .notFound ∨ getRes = .unauthorized) :
    processWebhook getRes now item log q = (log, deleteRow item.id q,
      .completed) := by
  obtain ⟨athleteId, hA⟩ := Option.isSome_iff_exists.mp howner
  obtain ⟨activityId, hB⟩ := Option.isSome_iff_exists.mp hobjid
  unfold processWebhook
  rw [hpayload]
  dsimp only
  rw [hobj]
  dsimp only [Option.getD_some]
  unfold handleActivity
  rw [hA, hB]
  dsimp only
  have haspect2 : w.aspectType.getD "" = "create" ∨
      w.aspectType.getD "" = "update" := by
    rcases haspect with h | h <;> rw [h] <;> simp
  rw [if_pos haspect2]
  rcases hres with h | h <;> rw [h] <;> rfl

/-- Closed instance of webhook_notFound_unauthorized_completes. -/
theorem webhook_notFound_unauthorized_completes_witness :
    processWebhook .unauthorized 0
        ⟨7, some ⟨some "activity", some "update", some 1, some 2, none⟩,
          3, none, some 10, none⟩
        ⟨[⟨1, "webhook", 1, none, none, none, none⟩], 2⟩
        [] =
      (⟨[⟨1, "webhook", 1, none, none, none, none⟩], 2⟩, [], .completed) := by
  have h := webhook_notFound_unauthorized_completes .unauthorized 0
    ⟨7, some ⟨some "activity", some "update", some 1, some 2, none⟩,
      3, none, some 10, none⟩
    ⟨some "activity", some "update", some 1, some 2, none⟩
    ⟨[⟨1, "webhook", 1, none, none, none, none⟩], 2⟩
    [] rfl rfl (by decide) (by decide) (Or.inr rfl) (Or.inr rfl)
  simpa [deleteRow] using h

/-- C5: an athlete webhook with aspect_type update and
  updates.authorized = "false" for athlete A appends a webhook event E
  carrying the raw notification and no activity blob, and leaves no event
  of athlete A other than E in the log; any athlete webhook not of that
  shape leaves the event log untouched. -/
theorem athlete_deauth_purges (w : WebhookPayload) (log : EventLog)
    (hWf : log.Wf) :
    (∀ A u, w.ownerId = some A → w.aspectType = some "update" →
      w.updates = some u → u.authorized = some "false" →
      handleAthlete w log =
        (⟨log.rows.filter (fun e => e.athleteId ≠ A) ++
            [⟨log.nextId, "webhook", A, none, none, none, some w⟩],
          log.nextId + 1⟩, false) ∧
      ∀ e ∈ (handleAthlete w log).1.rows, e.athleteId = A →
        e = ⟨log.nextId, "webhook", A, none, none, none, some w⟩) ∧
    ((w.ownerId = none ∨ w.aspectType.getD "" ≠ "update" ∨
        w.updates = none ∨
        (∀ u, w.updates = some u → u.authorized ≠ some "false")) →
      (handleAthlete w log).1 = log) := by
  constructor
  · intro A u hA hAsp hU hAuth
    have hmain : handleAthlete w log =
        (⟨log.rows.filter (fun e => e.athleteId ≠ A) ++
            [⟨log.nextId, "webhook", A, none, none, none, some w⟩],
          log.nextId + 1⟩, false) := by
      unfold handleAthlete
      rw [hA]
      dsimp only
      rw [hAsp]
      rw [if_neg (by simp)]
      rw [hU]
      dsimp only
      rw [if_neg (by simp [hAuth])]
      unfold insertActivityEvent
      rw [if_neg (by simp)]
      dsimp only
      unfold deleteAthleteEvents
      dsimp only
      rw [List.filter_append]
      congr 2
      congr 1
      · refine List.filter_congr ?_
        intro e he
        have hne : e.eventId ≠ log.nextId := ne_of_lt (hWf.2 e he)
        simp [hne]
      · simp
    refine ⟨hmain, ?_⟩
    rw [hmain]
    intro e he heA
    rcases List.mem_append.mp he with h1 | h1
    · exact absurd heA (by simpa using (List.of_mem_filter h1))
    · simpa using h1
  · intro h
    unfold handleAthlete
    cases hA : w.ownerId with
    | none => rfl
    | some A =>
      dsimp only
      by_cases hasp : w.aspectType.getD "" = "update"
      · rw [if_neg (by simpa using hasp)]
        cases hU : w.updates with
        | none => rfl
        | some u =>
          dsimp only
          have hu2 : u.authorized ≠ some "false" := by
            rcases h with h | h | h | h
            · exact absurd hA (by simp [h])
            · exact absurd hasp h
            · exact absurd hU (by simp [h])
            · exact h u hU
          rw [if_pos (by simpa using hu2)]
      · rw [if_pos (by simpa using hasp)]

/-- Closed instance of athlete_deauth_purges: a deauthorization for
  athlete 12345 leaves only the new event for that athlete and keeps the
  event of athlete 99. -/
theorem athlete_deauth_purges_witness :
    handleAthlete
        ⟨some "athlete", some "update", some 12345, none,
          some ⟨some "false"⟩⟩
        ⟨[⟨1, "athlete_connected", 12345, none, some "s", none, none⟩,
          ⟨2, "webhook", 99, none, none, none, none⟩], 3⟩ =
      (⟨[⟨2, "webhook", 99, none, none, none, none⟩,
          ⟨3, "webhook", 12345, none, none, none,
            some ⟨some "athlete", some "update", some 12345, none,
              some ⟨some "false"⟩⟩⟩], 4⟩, false) := by
  have h := (athlete_deauth_purges
    ⟨some "athlete", some "update", some 12345, none, some ⟨some "false"⟩⟩
    ⟨[⟨1, "athlete_connected", 12345, none, some "s", none, none⟩,
      ⟨2, "webhook", 99, none, none, none, none⟩], 3⟩
    (by decide)).1 12345 ⟨some "false"⟩ rfl rfl rfl rfl
  rw [h.1]
  decide

/-- claimNext on a queue with no ready row returns nothing and leaves the
  queue unchanged. -/
theorem claimNext_all_not_ready {α : Type} (now : Int)
    (q : List (QueueRow α)) (h : ∀ r ∈ q, rowReady now r = false) :
    claimNext now q = (none, q) := by
  induction q with
  | nil => rfl
  | cons r rest ih =>
    have hr : rowReady now r = false := h r (by simp)
    have hrest := ih (fun x hx => h x (by simp [hx]))
    simp only [claimNext]
    rw [if_neg (by simp [hr])]
    rw [hrest]

/-- claimNext on an id-sorted queue with a ready row claims the ready row
  of least id: it returns that row with processing-started-at set to now
  and updates exactly that row in the queue. -/
theorem claimNext_exists_ready {α : Type} [DecidableEq α] (now : Int)
    (q : List (QueueRow α)) (hsort : q.Pairwise (fun a b => a.id < b.id))
    (hex : ∃ r ∈ q, rowReady now r = true) :
    ∃ r ∈ q, rowReady now r = true ∧
      (∀ r2 ∈ q, rowReady now r2 = true → r.id ≤ r2.id) ∧
      claimNext now q =
        (some { r with processingStartedAt := some now },
         q.map (fun x =>
           if x.id = r.id then { r with processingStartedAt := some now }
           else x)) := by
  induction q with
  | nil => simp at hex
  | cons a rest ih =>
    rw [List.pairwise_cons] at hsort
    obtain ⟨ha, hrest⟩ := hsort
    by_cases hready : rowReady now a = true
    · refine ⟨a, by simp, hready, ?_, ?_⟩
      · intro r2 h2 _
        rcases List.mem_cons.mp h2 with h2 | h2
        · rw [h2]
        · exact le_of_lt (ha r2 h2)
      · have hmap : rest.map (fun x =>
            if x.id = a.id then { a with processingStartedAt := some now }
            else x) = rest := by
          conv_rhs => rw [← List.map_id rest]
          exact List.map_congr_left
            (fun x hx => if_neg (Ne.symm (ne_of_lt (ha x hx))))
        simp only [claimNext]
        rw [if_pos hready, List.map_cons, if_pos rfl, hmap]
    · have hready2 : rowReady now a = false := by
        simpa using hready
      have hex2 : ∃ r ∈ rest, rowReady now r = true := by
        obtain ⟨r, hr, hrdy⟩ := hex
        rcases List.mem_cons.mp hr with h1 | h1
        · rw [h1] at hrdy; exact absurd hrdy (by simp [hready2])
        · exact ⟨r, h1, hrdy⟩
      obtain ⟨r0, hr0mem, hr0rdy, hr0min, hr0comp⟩ := ih hrest hex2
      refine ⟨r0, by simp [hr0mem], hr0rdy, ?_, ?_⟩
      · intro r2 h2 hrdy2
        rcases List.mem_cons.mp h2 with h2 | h2
        · rw [h2] at hrdy2; exact absurd hrdy2 (by simp [hready2])
        · exact hr0min r2 h2 hrdy2
      · have hne : a.id ≠ r0.id := ne_of_lt (ha r0 hr0mem)
        simp only [claimNext]
        rw [if_neg (by simp [hready2]), hr0comp, List.map_cons,
          if_neg hne]

/-- C4: a claim-next call on either queue, over an id-sorted table:
  when some row satisfies
  (next_retry_at IS NULL OR next_retry_at <= now) AND
  (processing_started_at IS NULL OR processing_started_at < now - 5min),
  the call returns the satisfying row of smallest id with its
  processing-started-at set to now, updating exactly that row in the
  store; when no row satisfies it, the call returns nothing and the store
  is unchanged. -/
theorem claim_next_oldest_ready (now : Int) (qw : List WebhookQueueItem)
    (qs : List SyncJob)
    (hw : qw.Pairwise (fun a b => a.id < b.id))
    (hs : qs.Pairwise (fun a b => a.id < b.id)) :
    ((∃ r ∈ qw, rowReady now r = true) →
      ∃ r ∈ qw, rowReady now r = true ∧
        (∀ r2 ∈ qw, rowReady now r2 = true → r.id ≤ r2.id) ∧
        claimNext now qw =
          (some { r with processingStartedAt := some now },
           qw.map (fun x =>
             if x.id = r.id then { r with processingStartedAt := some now }
             else x))) ∧
    ((∀ r ∈ qw, rowReady now r = false) → claimNext now qw = (none, qw)) ∧
    ((∃ r ∈ qs, rowReady now r = true) →
      ∃ r ∈ qs, rowReady now r = true ∧
        (∀ r2 ∈ qs, rowReady now r2 = true → r.id ≤ r2.id) ∧
        claimNext now qs =
          (some { r with processingStartedAt := some now },
           qs.map (fun x =>
             if x.id = r.id then { r with processingStartedAt := some now }
             else x))) ∧
    ((∀ r ∈ qs, rowReady now r = false) → claimNext now qs = (none, qs)) :=
  ⟨fun hex => claimNext_exists_ready now qw hw hex,
   fun hall => claimNext_all_not_ready now qw hall,
   fun hex => claimNext_exists_ready now qs hs hex,
   fun hall => claimNext_all_not_ready now qs hall⟩

/-- Closed instance of claim_next_oldest_ready: with row 1 waiting on a
  future retry and row 2 ready, the claim returns row 2 stamped with the
  claim time. -/
theorem claim_next_oldest_ready_witness :
    ∃ r ∈ ([⟨1, (none : Option WebhookPayload), 0, none, some 5000, none⟩,
        ⟨2, none, 0, none, none, none⟩] : List WebhookQueueItem),
      rowReady 1000 r = true ∧
      (∀ r2 ∈ ([⟨1, (none : Option WebhookPayload), 0, none, some 5000,
          none⟩, ⟨2, none, 0, none, none, none⟩] : List WebhookQueueItem),
        rowReady 1000 r2 = true → r.id ≤ r2.id) ∧
      claimNext 1000
          ([⟨1, (none : Option WebhookPayload), 0, none, some 5000, none⟩,
            ⟨2, none, 0, none, none, none⟩] : List WebhookQueueItem) =
        (some { r with processingStartedAt := some 1000 },
         ([⟨1, (none : Option WebhookPayload), 0, none, some 5000, none⟩,
            ⟨2, none, 0, none, none, none⟩] : List WebhookQueueItem).map
           (fun x =>
             if x.id = r.id then { r with processingStartedAt := some 1000 }
             else x)) :=
  (claim_next_oldest_ready 1000
    [⟨1, (none : Option WebhookPayload), 0, none, some 5000, none⟩,
      ⟨2, none, 0, none, none, none⟩] []
    (by decide) (by decide)).1 (by decide)

/-- A getEvents batch from a well-formed log keeps the ascending
  event_id order of the log. -/
theorem getEvents_pairwise (cursor limit : Int) (log : EventLog)
    (hWf : log.Wf) :
    (getEvents cursor limit log).Pairwise
      (fun a b => a.eventId < b.eventId) := by
  unfold getEvents
  dsimp only
  split
  · exact List.Pairwise.sublist (List.filter_sublist _) hWf.1
  · exact List.Pairwise.sublist
      ((List.take_sublist _ _).trans (List.filter_sublist _)) hWf.1

/-- C6: read_events(cursor, limit) over a well-formed log and a
  non-negative limit returns only events with id strictly above the
  cursor, in ascending id order, and at most limit of them.  (A negative
  limit never reaches GetEvents: the events endpoint rejects limits
  outside [1,1000]; SQLite would treat a negative LIMIT as no limit.) -/
theorem read_events_cursor_pagination (cursor limit : Int) (log : EventLog)
    (hWf : log.Wf) (hlim : 0 ≤ limit) :
    (∀ e ∈ getEvents cursor limit log, cursor < e.eventId) ∧
    (getEvents cursor limit log).Pairwise
      (fun a b => a.eventId < b.eventId) ∧
    ((getEvents cursor limit log).length : Int) ≤ limit := by
  refine ⟨?_, getEvents_pairwise cursor limit log hWf, ?_⟩
  · intro e he
    have hmem : e ∈ log.rows.filter (fun e => cursor < e.eventId) := by
      unfold getEvents at he
      dsimp only at he
      split at he
      · exact he
      · exact List.mem_of_mem_take he
    simpa using (List.mem_filter.mp hmem).2
  · unfold getEvents
    dsimp only
    rw [if_neg (by omega)]
    have h1 : ((log.rows.filter (fun e => cursor < e.eventId)).take
        limit.toNat).length ≤ limit.toNat := by
      rw [List.length_take]; omega
    omega

/-- Closed instance of read_events_cursor_pagination. -/
theorem read_events_cursor_pagination_witness :
    (∀ e ∈ getEvents 1 2
        ⟨[⟨1, "webhook", 5, none, none, none, none⟩,
          ⟨2, "webhook", 5, none, none, none, none⟩,
          ⟨3, "webhook", 5, none, none, none, none⟩], 4⟩,
      (1 : Int) < e.eventId) ∧
    (getEvents 1 2
        ⟨[⟨1, "webhook", 5, none, none, none, none⟩,
          ⟨2, "webhook", 5, none, none, none, none⟩,
          ⟨3, "webhook", 5, none, none, none, none⟩], 4⟩).Pairwise
      (fun a b => a.eventId < b.eventId) ∧
    ((getEvents 1 2
        ⟨[⟨1, "webhook", 5, none, none, none, none⟩,
          ⟨2, "webhook", 5, none, none, none, none⟩,
          ⟨3, "webhook", 5, none, none, none, none⟩], 4⟩).length : Int) ≤
      2 :=
  read_events_cursor_pagination 1 2
    ⟨[⟨1, "webhook", 5, none, none, none, none⟩,
      ⟨2, "webhook", 5, none, none, none, none⟩,
      ⟨3, "webhook", 5, none, none, none, none⟩], 4⟩
    (by decide) (by omega)

/-- getLatestCursor of an ascending batch is the request cursor when the
  batch is empty, and the maximal returned event id otherwise. -/
theorem getLatestCursor_max (l : List EventRow) (c : Int)
    (hl : l.Pairwise (fun a b => a.eventId < b.eventId)) :
    (l = [] ∧ getLatestCursor l c = c) ∨
    (getLatestCursor l c ∈ l.map (fun e => e.eventId) ∧
      ∀ e ∈ l, e.eventId ≤ getLatestCursor l c) := by
  induction l with
  | nil => exact Or.inl ⟨rfl, rfl⟩
  | cons a t ih =>
    rw [List.pairwise_cons] at hl
    obtain ⟨haTail, hTail⟩ := hl
    right
    cases t with
    | nil =>
      refine ⟨by simp [getLatestCursor], ?_⟩
      intro e he
      have : e = a := by simpa using he
      simp [this, getLatestCursor]
    | cons b t2 =>
      have hstep : getLatestCursor (a :: b :: t2) c =
          getLatestCursor (b :: t2) c := by
        simp [getLatestCursor, List.getLast?_cons_cons]
      rcases ih hTail with ⟨habs, _⟩ | ⟨hmem, hbound⟩
      · exact absurd habs (by simp)
      · obtain ⟨e0, he0mem, he0eq⟩ := List.mem_map.mp hmem
        refine ⟨?_, ?_⟩
        · rw [hstep]
          exact List.mem_map.mpr ⟨e0, by simp [he0mem], he0eq⟩
        · intro e he
          rw [hstep]
          rcases List.mem_cons.mp he with he | he
          · rw [he, ← he0eq]
            exact le_of_lt (haTail e0 he0mem)
          · exact hbound e he

/-- The long-poll loop returns an empty batch or a getEvents batch from
  one of the polled snapshots. -/
theorem longPollEvents_cases (cursor limit : Int) (logs : List EventLog) :
    longPollEvents cursor limit logs = [] ∨
    ∃ l ∈ logs, longPollEvents cursor limit logs =
      getEvents cursor limit l := by
  induction logs with
  | nil => exact Or.inl rfl
  | cons log rest ih =>
    by_cases h : (getEvents cursor limit log).isEmpty
    · rcases ih with h2 | ⟨l, hl, h2⟩
      · left
        simpa [longPollEvents, h] using h2
      · right
        exact ⟨l, by simp [hl], by simpa [longPollEvents, h] using h2⟩
    · right
      exact ⟨log, by simp, by simp [longPollEvents, h]⟩

/-- C7: the events endpoint response carries a cursor field equal to the
  largest event id among the returned events, or the request cursor when
  the returned list is empty; this holds for the direct read and for the
  long-poll path over any sequence of well-formed snapshots. -/
theorem events_response_cursor (cursor limit : Int) (longPoll : Bool)
    (log : EventLog) (pollLogs : List EventLog)
    (hWf : log.Wf) (hAll : ∀ l ∈ pollLogs, l.Wf) :
    ((handleEventsResponse cursor limit longPoll log pollLogs).1 = [] ∧
      (handleEventsResponse cursor limit longPoll log pollLogs).2 =
        cursor) ∨
    ((handleEventsResponse cursor limit longPoll log pollLogs).2 ∈
        (handleEventsResponse cursor limit longPoll log pollLogs).1.map
          (fun e => e.eventId) ∧
      ∀ e ∈ (handleEventsResponse cursor limit longPoll log pollLogs).1,
        e.eventId ≤
          (handleEventsResponse cursor limit longPoll log pollLogs).2) := by
  have main : ∀ evs : List EventRow,
      evs.Pairwise (fun a b => a.eventId < b.eventId) →
      (evs = [] ∧ getLatestCursor evs cursor = cursor) ∨
      (getLatestCursor evs cursor ∈ evs.map (fun e => e.eventId) ∧
        ∀ e ∈ evs, e.eventId ≤ getLatestCursor evs cursor) :=
    fun evs h => getLatestCursor_max evs cursor h
  unfold handleEventsResponse
  dsimp only
  cases longPoll with
  | false =>
    simpa using main (getEvents cursor limit log)
      (getEvents_pairwise cursor limit log hWf)
  | true =>
    rcases longPollEvents_cases cursor limit pollLogs with h | ⟨l, hl, h⟩
    · rw [if_pos rfl, h]
      exact Or.inl ⟨rfl, rfl⟩
    · rw [if_pos rfl, h]
      simpa using main (getEvents cursor limit l)
        (getEvents_pairwise cursor limit l (hAll l hl))

/-- Closed instance of events_response_cursor (long-poll path waking on
  the second snapshot). -/
theorem events_response_cursor_witness :
    ((handleEventsResponse 0 10 true ⟨[], 1⟩
        [⟨[], 1⟩, ⟨[⟨1, "webhook", 5, none, none, none, none⟩], 2⟩]).1 =
          [] ∧
      (handleEventsResponse 0 10 true ⟨[], 1⟩
        [⟨[], 1⟩, ⟨[⟨1, "webhook", 5, none, none, none, none⟩], 2⟩]).2 =
          0) ∨
    ((handleEventsResponse 0 10 true ⟨[], 1⟩
        [⟨[], 1⟩, ⟨[⟨1, "webhook", 5, none, none, none, none⟩], 2⟩]).2 ∈
        (handleEventsResponse 0 10 true ⟨[], 1⟩
          [⟨[], 1⟩,
            ⟨[⟨1, "webhook", 5, none, none, none, none⟩], 2⟩]).1.map
          (fun e => e.eventId) ∧
      ∀ e ∈ (handleEventsResponse 0 10 true ⟨[], 1⟩
          [⟨[], 1⟩, ⟨[⟨1, "webhook", 5, none, none, none, none⟩], 2⟩]).1,
        e.eventId ≤
          (handleEventsResponse 0 10 true ⟨[], 1⟩
            [⟨[], 1⟩,
              ⟨[⟨1, "webhook", 5, none, none, none, none⟩], 2⟩]).2) :=
  events_response_cursor 0 10 true ⟨[], 1⟩
    [⟨[], 1⟩, ⟨[⟨1, "webhook", 5, none, none, none, none⟩], 2⟩]
    (by decide) (by decide)

/-- The sync_activity jobs inserted for a run of listed activity ids. -/
def addSyncActJobs (athleteId now : Int) (ids : List Int)
    (acc : List SyncJob × Int) : List SyncJob × Int :=
  ids.foldl
    (fun a aid => enqueueActivitySyncJob athleteId aid now a.1 a.2) acc

/-- The (page, per_page) requests for n consecutive pages from page s. -/
def pageRequests (s n : Nat) : List (Int × Int) :=
  (List.range' s n).map (fun (p : Nat) => ((p : Int), 200))

theorem pageRequests_succ (s n : Nat) :
    pageRequests s (n + 1) = ((s : Int), 200) :: pageRequests (s + 1) n := by
  unfold pageRequests
  rw [List.range'_succ s n 1, List.map_cons]

/-- The paging behavior of Worker.listActivities starting at any page
  s >= 1: across full pages (length 200) followed by a final short page,
  it requests pages s, s+1, ... with per_page 200 and enqueues one
  sync_activity job per listed id, in listing order. -/
theorem listActivitiesLoop_pages (athleteId now : Int)
    (pages : List (List Int)) (lastIds : List Int) (s : Nat) (hs : 1 ≤ s)
    (hfull : ∀ p ∈ pages, (p.length : Int) = 200)
    (hlast : (lastIds.length : Int) ≠ 200)
    (q : List SyncJob) (nid : Int) :
    listActivitiesLoop athleteId now (s : Int)
        (pages.map ListPageResult.page ++ [ListPageResult.page lastIds])
        q nid =
      (pageRequests s (pages.length + 1),
       (addSyncActJobs athleteId now (pages.flatten ++ lastIds)
          (q, nid)).1,
       (addSyncActJobs athleteId now (pages.flatten ++ lastIds)
          (q, nid)).2,
       true, false) := by
  induction pages generalizing s q nid with
  | nil =>
    simp only [List.map_nil, List.nil_append, List.flatten_nil,
      listActivitiesLoop]
    have hreq : clientListActivities (s : Int) 200 lastIds =
        ⟨((s : Int), 200), lastIds, false⟩ := by
      unfold clientListActivities
      rw [if_neg (by omega), if_neg (by omega)]
      simp [hlast]
    rw [hreq]
    simp only [pageRequests, List.range'_one, List.map_cons, List.map_nil]
    rfl
  | cons p rest ih =>
    simp only [List.map_cons, List.cons_append, listActivitiesLoop]
    have hreq : clientListActivities (s : Int) 200 p =
        ⟨((s : Int), 200), p, true⟩ := by
      unfold clientListActivities
      rw [if_neg (by omega), if_neg (by omega)]
      simp [hfull p (by simp)]
    rw [hreq]
    dsimp only
    rw [if_pos rfl]
    have hcast : ((s : Int) + 1) = ((s + 1 : Nat) : Int) := by push_cast; ring
    rw [List.append_eq, hcast, ih (s + 1) (by omega)
      (fun x hx => hfull x (by simp [hx]))]
    dsimp only
    rw [List.length_cons,
      pageRequests_succ s (rest.length + 1),
      pageRequests_succ (s + 1) rest.length]
    simp only [addSyncActJobs, List.flatten_cons, List.append_assoc,
      List.foldl_append, Prod.mk.eta]

/-- C2: a successful OAuth completion (valid state, successful code
  exchange, parsable athlete id) returns ok and enqueues exactly one
  list_activities job for the athlete on the backfill queue; the worker
  dispatches that job kind to its paging routine, and that routine pages
  the listed activities from page 1 upward with per_page 200, enqueueing
  a sync_activity job per activity id. -/
theorem oauth_enqueues_list_activities (stateClient : Option String)
    (exchange : Option TokenResponse) (now : Int) (s : OAuthStores)
    (cid : String) (tr : TokenResponse) (athleteId : Int)
    (h1 : stateClient = some cid) (h2 : exchange = some tr)
    (h3 : tr.athleteIdParse = some athleteId) :
    (handleCallback stateClient exchange now s).1 =
      some (athleteId, cid) ∧
    (handleCallback stateClient exchange now s).2.syncJobs =
      s.syncJobs ++
        [⟨s.nextJobId, ⟨athleteId, "list_activities", none, now⟩, 0,
          none, none, none⟩] ∧
    (∀ job : SyncJob, job.payload.jobType = "list_activities" →
      syncJobDispatch job = .listActs job.payload.athleteId) ∧
    (∀ (pages : List (List Int)) (lastIds : List Int)
        (q : List SyncJob) (nid : Int),
      (∀ p ∈ pages, (p.length : Int) = 200) →
      (lastIds.length : Int) ≠ 200 →
      listActivities athleteId now
          (pages.map ListPageResult.page ++ [ListPageResult.page lastIds])
          q nid =
        (pageRequests 1 (pages.length + 1),
         (addSyncActJobs athleteId now (pages.flatten ++ lastIds)
            (q, nid)).1,
         (addSyncActJobs athleteId now (pages.flatten ++ lastIds)
            (q, nid)).2,
         true, false)) := by
  refine ⟨?_, ?_, ?_, ?_⟩
  · simp [handleCallback, h1, h2, h3]
  · simp [handleCallback, h1, h2, h3, enqueueSyncJob,
      insertAthleteConnectedEvent]
  · intro job hj
    unfold syncJobDispatch
    rw [hj]
    rfl
  · intro pages lastIds q nid hfull hlast
    have := listActivitiesLoop_pages athleteId now pages lastIds 1
      (by omega) hfull hlast q nid
    simpa [listActivities] using this

/-- Closed instance of oauth_enqueues_list_activities: one full page of
  200 ids would be needed for paging, so the paging part is exercised
  with a single short page; the callback part is exercised on empty
  stores. -/
theorem oauth_enqueues_list_activities_witness :
    (handleCallback (some "primary")
        (some ⟨"a", "r", 100, "blob", some 12345⟩) 50
        ⟨[], ⟨[], 1⟩, [], 1⟩).1 = some (12345, "primary") ∧
    (handleCallback (some "primary")
        (some ⟨"a", "r", 100, "blob", some 12345⟩) 50
        ⟨[], ⟨[], 1⟩, [], 1⟩).2.syncJobs =
      [⟨1, ⟨12345, "list_activities", none, 50⟩, 0, none, none, none⟩] ∧
    listActivities 12345 50 [ListPageResult.page [7, 8]] [] 1 =
      ([(1, 200)],
       (addSyncActJobs 12345 50 [7, 8] ([], 1)).1,
       (addSyncActJobs 12345 50 [7, 8] ([], 1)).2, true, false) := by
  have h := oauth_enqueues_list_activities (some "primary")
    (some ⟨"a", "r", 100, "blob", some 12345⟩) 50
    ⟨[], ⟨[], 1⟩, [], 1⟩ "primary" ⟨"a", "r", 100, "blob", some 12345⟩
    12345 rfl rfl rfl
  refine ⟨by rw [h.1], by rw [h.2.1]; rfl, ?_⟩
  have h4 := h.2.2.2 [] [7, 8] [] 1 (by simp) (by decide)
  simpa using h4

end StravaSync
